import Mathlib

/-!
Verification development for the CLEVR-style question generation engine
(`question_generation/generate_questions.py` plus the list-task helpers).

The Python source is shallowly embedded:
* Python dicts become association lists (`List (κ × ν)`) with insertion-order
  update (`dset`) and lookup (`dget`);
* Python sets become duplicate-free lists (membership-insert);
* Python's stable `sorted` / `list.sort` becomes a stable insertion sort
  (`stableSort`), which agrees with any stable ascending sort;
* in-place mutation of the scene becomes explicit state passing (functions
  whose Python original mutates the scene return the updated scene);
* code that can raise `IndexError` returns `Option` (`none` = the exception);
* the external collaborators `question_engine.answer_question` and
  `question_engine.is_degenerate` (not part of the sources under
  verification) and the shared pseudo-random source are oracle parameters
  carried in `DfsCtx`, as the specification's §5/§6 interfaces demand.
-/

/-- Association-list lookup, modelling Python `d.get(k)` / `d[k]`. -/
def dget [DecidableEq κ] (m : List (κ × ν)) (k : κ) : Option ν :=
  (m.find? (fun kv => decide (kv.1 = k))).map (·.2)

/-- Association-list update, modelling Python `d[k] = v`: replace in place when
the key is present, append otherwise (insertion order preserved). -/
def dset [DecidableEq κ] (m : List (κ × ν)) (k : κ) (v : ν) : List (κ × ν) :=
  if m.any (fun kv => decide (kv.1 = k)) then
    m.map (fun kv => if kv.1 = k then (k, v) else kv)
  else m ++ [(k, v)]

/-- Stable insert for `stableSort`: an element is placed after every element
`b` with `le b a`, so equal elements keep their original relative order. -/
def sinsert (le : α → α → Bool) (a : α) : List α → List α
  | [] => [a]
  | b :: t => if le b a then b :: sinsert le a t else a :: b :: t

/-- Stable ascending sort, modelling Python's stable `sorted`/`list.sort`. -/
def stableSort (le : α → α → Bool) (l : List α) : List α :=
  l.foldl (fun acc a => sinsert le a acc) []

/-- Substring test, modelling Python `pat in s` for strings. -/
def strContains (s pat : String) : Bool :=
  s.data.tails.any (fun t => pat.data.isPrefixOf t)

/-- Worker for `pyStrReplace`.  The fuel argument (instantiated with the
length of the scanned text, which every step strictly decreases) only makes
the recursion structural; it is never exhausted. -/
def replaceAux (pat repl : List Char) : Nat → List Char → List Char
  | 0, s => s
  | _ + 1, [] => []
  | fuel + 1, c :: rest =>
    if pat ≠ [] ∧ pat.isPrefixOf (c :: rest) then
      repl ++ replaceAux pat repl fuel ((c :: rest).drop pat.length)
    else c :: replaceAux pat repl fuel rest

/-- Left-to-right, non-overlapping replacement of every occurrence of `pat`,
modelling Python `str.replace` (scanning resumes after the inserted text). -/
def pyStrReplace (s pat repl : String) : String :=
  ⟨replaceAux pat.data repl.data s.data.length s.data⟩

/-- Python 3 `round` (banker's rounding, half to even) on an exact rational;
the source applies it to a small-magnitude float quotient, where the float
result and the exact rational result agree. -/
def pyRound (q : ℚ) : Int :=
  let n : Int := q.num
  let d : Int := (q.den : Int)
  let fl : Int := Int.fdiv n d
  let r : Int := n - d * fl
  if 2 * r < d then fl
  else if 2 * r > d then fl + 1
  else if fl % 2 = 0 then fl else fl + 1

/-- One scene object: the four categorical attributes plus its coordinates
(`3d_coords`; only the first coordinate is ever used, as a sort key). -/
structure SObj where
  size : String
  color : String
  material : String
  shape : String
  coords : List Int
deriving DecidableEq, Repr

/-- A scene record: objects, the relationships table
(relationship name ↦ per-object list of related object ids), and the
`_filter_options` cache key that `precompute_filter_options` attaches. -/
structure SceneStruct where
  objects : List SObj
  relationships : List (String × List (List Nat))
  filter_options : Option (List (List (Option String) × List Nat)) := none
deriving DecidableEq, Repr

/-- The metadata record: dataset name and the value domains of each type. -/
structure Metadata where
  dataset : String
  types : List (String × List String)
deriving DecidableEq, Repr

/- ---------------------------------------------------------------------
List-task ("behind the scenes") question helpers
--------------------------------------------------------------------- -/

/-- Source `query_colors`. -/
def queryColors : List String := ["red", "gray", "yellow", "cyan"]

/-- Source `query_positions`. -/
def queryPositions : List String := ["1st", "2nd", "3rd"]

/-- A (type, color, position) question tuple; `reverse`/`sort` questions reuse
the triple shape with an empty color so one list type serves all tasks. -/
abbrev BQuestion := String × String × String

/-- Source `delete_questions`: the twelve delete tuples. -/
def deleteQuestionsList : List BQuestion :=
  [("delete", "red", "1st"), ("delete", "red", "2nd"), ("delete", "red", "3rd"),
   ("delete", "gray", "1st"), ("delete", "gray", "2nd"), ("delete", "gray", "3rd"),
   ("delete", "yellow", "1st"), ("delete", "yellow", "2nd"), ("delete", "yellow", "3rd"),
   ("delete", "cyan", "1st"), ("delete", "cyan", "2nd"), ("delete", "cyan", "3rd")]

/-- Source `append_questions`: the twelve append tuples. -/
def appendQuestionsList : List BQuestion :=
  [("append", "red", "1st"), ("append", "red", "2nd"), ("append", "red", "3rd"),
   ("append", "gray", "1st"), ("append", "gray", "2nd"), ("append", "gray", "3rd"),
   ("append", "yellow", "1st"), ("append", "yellow", "2nd"), ("append", "yellow", "3rd"),
   ("append", "cyan", "1st"), ("append", "cyan", "2nd"), ("append", "cyan", "3rd")]

/-- Source `delete_object`: drop the first occurrence of `query_color`
(a counter ensures only the first match is skipped). -/
def deleteObject (query_color : String) (colors : List String) : List String :=
  (colors.foldl
    (fun (acc : List String × Nat) color =>
      if query_color = color ∧ acc.2 = 0 then (acc.1, acc.2 + 1)
      else (acc.1 ++ [color], acc.2))
    ([], 0)).1

/-- Source `append_object`: prepend the queried color. -/
def appendObject (query_color : String) (colors : List String) : List String :=
  [query_color] ++ colors

/-- Source `reverse_objects`. -/
def reverseObjects (colors : List String) : List String :=
  colors.reverse

/-- Source `sort_objects` (`sorted` on strings, lexicographic). -/
def sortObjects (colors : List String) : List String :=
  stableSort (fun a b => a ≤ b) colors

/-- Source `get_object_by_position`: index 0/1/2 by position word; an
out-of-range index (Python `IndexError`) and a position outside the asserted
set become `none`. -/
def getObjectByPosition (colors : List String) (position : String) : Option String :=
  if position = "1st" then colors.get? 0
  else if position = "2nd" then colors.get? 1
  else if position = "3rd" then colors.get? 2
  else none

/-- Sort objects by the first entry of `3d_coords`, as both
`json_scene_to_colors` and `json_scene_to_objects` do in place. -/
def sortObjectsByX (objs : List SObj) : List SObj :=
  stableSort (fun a b => a.coords.getD 0 0 ≤ b.coords.getD 0 0) objs

/-- Source `json_scene_to_colors`: sorts the scene's object list in place by
x-coordinate, then reads off the colors.  The returned pair is (scene after
the in-place sort, color list). -/
def jsonSceneToColors (scene : SceneStruct) : SceneStruct × List String :=
  let objs := sortObjectsByX scene.objects
  ({ scene with objects := objs }, objs.map (·.color))

/-- Source `json_scene_to_objects`: `objs = scene["objects"].sort(...)` binds
the result of the in-place sort, which is Python `None`, and returns it.  The
pair is (scene after the in-place sort, the returned value). -/
def jsonSceneToObjects (scene : SceneStruct) : SceneStruct × Option (List SObj) :=
  ({ scene with objects := sortObjectsByX scene.objects }, none)

/-- Loop body of `get_questions_and_answers_delete`: keep a question when its
color occurs in the scene and its position is `1st`/`2nd`; a failed list
index inside `get_object_by_position` aborts the whole call (`none`). -/
def deleteQuestionsLoop (colors : List String) :
    List BQuestion → List BQuestion → List String → Option (List BQuestion × List String)
  | [], qs, ans => some (qs, ans)
  | q :: rest, qs, ans =>
    if q.2.1 ∈ colors ∧ (q.2.2 = "1st" ∨ q.2.2 = "2nd") then
      match getObjectByPosition (deleteObject q.2.1 colors) q.2.2 with
      | none => none
      | some a => deleteQuestionsLoop colors rest (qs ++ [q]) (ans ++ [a])
    else deleteQuestionsLoop colors rest qs ans

/-- Source `get_questions_and_answers_delete`. -/
def getQuestionsAndAnswersDelete (scene : SceneStruct) :
    Option (List BQuestion × List String) :=
  deleteQuestionsLoop (jsonSceneToColors scene).2 deleteQuestionsList [] []

/-- Loop body of `get_questions_and_answers_append`: every question is kept
("any question is valid"); a failed index aborts the whole call (`none`). -/
def appendQuestionsLoop (colors : List String) :
    List BQuestion → List BQuestion → List String → Option (List BQuestion × List String)
  | [], qs, ans => some (qs, ans)
  | q :: rest, qs, ans =>
    match getObjectByPosition (appendObject q.2.1 colors) q.2.2 with
    | none => none
    | some a => appendQuestionsLoop colors rest (qs ++ [q]) (ans ++ [a])

/-- Source `get_questions_and_answers_append`. -/
def getQuestionsAndAnswersAppend (scene : SceneStruct) :
    Option (List BQuestion × List String) :=
  appendQuestionsLoop (jsonSceneToColors scene).2 appendQuestionsList [] []

/- ---------------------------------------------------------------------
Surface realizer: the "other/another" heuristic
--------------------------------------------------------------------- -/

/-- Source `target_keys` in `other_heuristic`. -/
def targetKeys : List String :=
  ["<Z>", "<C>", "<M>", "<S>", "<Z2>", "<C2>", "<M2>", "<S2>"]

/-- Source `key_pairs` in `other_heuristic`. -/
def keyPairs : List (String × String) :=
  [("<Z>", "<Z2>"), ("<C>", "<C2>"), ("<M>", "<M2>"), ("<S>", "<S2>")]

/-- Set equality of key collections, modelling Python's comparison of
`param_vals.keys()` with the `target_keys` set. -/
def sameKeySet (ks target : List String) : Bool :=
  ks.all (fun k => k ∈ target) && target.all (fun k => k ∈ ks)

/-- Source `other_heuristic`.  The loop over `key_pairs` breaks at the first
pair whose two values are both non-empty and unequal (`any`); only then are
" other "/" another " rewritten. -/
def otherHeuristic (text : String) (param_vals : List (String × String)) : String :=
  if ¬ (strContains text " other " = true) ∧ ¬ (strContains text " another " = true) then
    text
  else if ¬ (sameKeySet (param_vals.map (·.1)) targetKeys = true) then text
  else
    let remove_other := keyPairs.any (fun kp =>
      let v1 := dget param_vals kp.1
      let v2 := dget param_vals kp.2
      decide (v1 ≠ some "" ∧ v2 ≠ some "" ∧ v1 ≠ v2))
    if remove_other then
      let text1 := if strContains text " other " then pyStrReplace text " other " " " else text
      let text2 :=
        if strContains text1 " another " then pyStrReplace text1 " another " " a " else text1
      text2
    else text

/- ---------------------------------------------------------------------
Attribute index
--------------------------------------------------------------------- -/

/-- Dynamic attribute access `obj[k]` for the four CLEVR attribute keys. -/
def objAttr (o : SObj) (k : String) : String :=
  if k = "size" then o.size
  else if k = "color" then o.color
  else if k = "material" then o.material
  else if k = "shape" then o.shape
  else ""

/-- Body of `precompute_filter_options`: for every object and every wildcard
mask, add the object's index to the entry of the masked attribute key.
Values are sets in the source; here duplicate-free lists built by
membership-insert.  (For a dataset other than CLEVR-v1.0 the source asserts
`False`; that fatal branch yields an empty key list here.) -/
def buildAttributeMap (scene : SceneStruct) (metadata : Metadata) :
    List (List (Option String) × List Nat) :=
  let attr_keys : List String :=
    if metadata.dataset = "CLEVR-v1.0" then ["size", "color", "material", "shape"] else []
  let masks : List (List Nat) :=
    (List.range (2 ^ attr_keys.length)).map
      (fun i => (List.range attr_keys.length).map (fun j => (i / 2 ^ j) % 2))
  scene.objects.enum.foldl
    (fun m oi =>
      let key : List String := attr_keys.map (objAttr oi.2)
      masks.foldl
        (fun m mask =>
          let masked_key : List (Option String) :=
            (key.zip mask).map (fun ab => if ab.2 = 1 then some ab.1 else none)
          let cur := (dget m masked_key).getD []
          dset m masked_key (if oi.1 ∈ cur then cur else cur ++ [oi.1]))
        m)
    []

/-- Source `precompute_filter_options`: computes the attribute map and
attaches it to the scene (`scene_struct["_filter_options"] = attribute_map`);
the in-place mutation becomes returning the updated scene. -/
def precomputeFilterOptions (scene : SceneStruct) (metadata : Metadata) : SceneStruct :=
  { scene with filter_options := some (buildAttributeMap scene metadata) }

/-- The `_filter_options` table a lookup actually uses: the cached one when
present, otherwise freshly computed (the `if "_filter_options" not in
scene_struct: precompute_filter_options(...)` pattern). -/
def sceneFO (scene : SceneStruct) (metadata : Metadata) :
    List (List (Option String) × List Nat) :=
  match scene.filter_options with
  | some m => m
  | none => buildAttributeMap scene metadata

/-- Keys of the per-expansion filter-option tables.  `tup` is an ordinary
masked attribute tuple; `rel` a (relationship, attribute-tuple) pair from the
relation index.  `genexp` models the generator expression that
`add_empty_filter_options` uses as a dict key: in the source `k` is built
without a `tuple(...)` cast, so the key is a generator object — distinct
from every tuple and from every other generator (here: a fresh id), and
yielding its random draws only when later unpacked (here: `yields`). -/
inductive FOKey where
  | tup (k : List (Option String))
  | genexp (gid : Nat) (yields : List (Option String))
  | rel (r : String) (fk : List (Option String))
deriving DecidableEq, Repr

/-- What `zip(filter_side_inputs, k)` sees of a key. -/
def FOKey.contents : FOKey → List (Option String)
  | .tup k => k
  | .genexp _ y => y
  | .rel _ fk => fk

/-- Source `find_filter_options`: intersect every cached filter entry with
the candidate object-id set (`sorted(list(object_idxs & vs))`). -/
def findFilterOptions (object_idxs : List Nat) (scene : SceneStruct) (metadata : Metadata) :
    List (FOKey × List Nat) :=
  (sceneFO scene metadata).map
    (fun kv =>
      (FOKey.tup kv.1,
        stableSort (fun a b => a ≤ b) (object_idxs.dedup.filter (fun x => decide (x ∈ kv.2)))))

/-- Source `add_empty_filter_options`: repeatedly draw a random key and add
it with an empty object list until `num_to_add` additions happened.  Because
the drawn key is a generator object (see `FOKey.genexp`) the `k not in
attribute_map` test always succeeds, so exactly `num_to_add` fresh entries
are appended; the generator's eventual random draws come from the oracle
stream `gen`. -/
def addEmptyFilterOptions (gen : Nat → List (Option String))
    (attribute_map : List (FOKey × List Nat)) (num_to_add : Nat) :
    List (FOKey × List Nat) :=
  attribute_map ++ (List.range num_to_add).map (fun i => (FOKey.genexp i (gen i), []))

/- ---------------------------------------------------------------------
Relation index
--------------------------------------------------------------------- -/

/-- Python `==` on sets: extensional equality of the underlying elements. -/
def setEqList (a b : List Nat) : Bool :=
  a.all (fun x => decide (x ∈ b)) && b.all (fun x => decide (x ∈ a))

/-- Body of the classification double loop of `find_relate_filter_options`:
intersect the anchor's related set with the filtered set, apply the
unique/include-zero guards, and store the sorted intersection under the
(relationship, filters) key — in `trivial_options` (second component) when
the intersection equals the filtered set, in `options` otherwise. -/
def relateStepFn (object_idx : Nat) (unique include_zero : Bool)
    (acc : List (FOKey × List Nat) × List (FOKey × List Nat))
    (pr : (String × List (List Nat)) × (List (Option String) × List Nat)) :
    List (FOKey × List Nat) × List (FOKey × List Nat) :=
  let relationship := pr.1.1
  let related := (pr.1.2.getD object_idx []).dedup
  let filters := pr.2.1
  let filtered := pr.2.2
  let intersection := related.filter (fun x => decide (x ∈ filtered))
  let trivial := setEqList intersection filtered
  if unique = true ∧ intersection.length ≠ 1 then acc
  else if ¬ (include_zero = true) ∧ intersection.length = 0 then acc
  else if trivial then
    (acc.1,
      dset acc.2 (FOKey.rel relationship filters)
        (stableSort (fun a b => a ≤ b) intersection))
  else
    (dset acc.1 (FOKey.rel relationship filters)
        (stableSort (fun a b => a ≤ b) intersection),
      acc.2)

/-- The classification double loop of `find_relate_filter_options`: every
relationship × cached filter entry, folded through `relateStepFn`. -/
def relateClassify (scene : SceneStruct) (metadata : Metadata) (object_idx : Nat)
    (unique include_zero : Bool) :
    List (FOKey × List Nat) × List (FOKey × List Nat) :=
  (scene.relationships.flatMap
      (fun rp => (sceneFO scene metadata).map (fun fo => (rp, fo)))).foldl
    (relateStepFn object_idx unique include_zero) ([], [])

/-- Source `find_relate_filter_options`: classify, compute the trivial
target count `int(round(N*f/(1-f)))`, shuffle the trivial pairs (the shuffle
is the oracle `shuffleT`), and merge a prefix of them into the result. -/
def findRelateFilterOptions (scene : SceneStruct) (metadata : Metadata)
    (shuffleT : List (FOKey × List Nat) → List (FOKey × List Nat))
    (object_idx : Nat) (unique include_zero : Bool) (trivial_frac : ℚ) :
    List (FOKey × List Nat) :=
  let oc := relateClassify scene metadata object_idx unique include_zero
  let options := oc.1
  let trivial_options := oc.2
  let num_trivial : Nat :=
    (pyRound ((options.length : ℚ) * trivial_frac / (1 - trivial_frac))).toNat
  ((shuffleT trivial_options).take num_trivial).foldl
    (fun m kv => dset m kv.1 kv.2) options

/- ---------------------------------------------------------------------
Template expander (the DFS engine)
--------------------------------------------------------------------- -/

/-- Values flowing out of the external program evaluator: strings, integers,
booleans, or object-id collections. -/
inductive CVal where
  | vstr (s : String)
  | vint (n : Int)
  | vbool (b : Bool)
  | vobjs (l : List Nat)
deriving DecidableEq, Repr

/-- A program node, template or concrete: type name, input node indices and
(when present) the side/value inputs. -/
structure PNode where
  ntype : String
  inputs : List Nat
  side_inputs : Option (List String) := none
deriving DecidableEq, Repr

/-- Source `node_shallow_copy`. -/
def nodeShallowCopy (node : PNode) : PNode :=
  { ntype := node.ntype, inputs := node.inputs, side_inputs := node.side_inputs }

/-- A constraint parameter: a parameter name (NEQ/NULL) or a template-node
index (OUT_NEQ); the source keeps both in one untyped list. -/
inductive CPar where
  | ps (s : String)
  | pn (n : Nat)
deriving DecidableEq, Repr

/-- Read a constraint parameter as a name (a mistyped template, which would
raise in the source, reads as the empty name). -/
def CPar.asStr : CPar → String
  | .ps s => s
  | .pn _ => ""

/-- Read a constraint parameter as a node index (mistyped reads as 0). -/
def CPar.asNat : CPar → Nat
  | .pn n => n
  | .ps _ => 0

/-- A template constraint. -/
structure TConstraint where
  ctype : String
  cparams : List CPar
deriving DecidableEq, Repr

/-- A search state of the DFS (§3 of the specification): concrete nodes so
far, bound parameter values, the template-node → concrete-node index map,
the next template node to expand, and — once accepted — the answer the
source records on the state. -/
structure DState where
  nodes : List PNode
  vals : List (String × String)
  input_map : List (Nat × Nat)
  next_template_node : Nat
  ans : Option CVal := none
deriving DecidableEq, Repr

/-- All parameters of one `instantiate_templates_dfs` run.  `evalQ` and
`isDegen` are the external `question_engine` collaborators, modelled from
the spec (§6): `evaluate(nodes, scene, all_outputs=True)` returning one
output per node, and the degeneracy test.  The `shuffle...` fields and
`genexpContents` are the shared pseudo-random source (§5): how a given list
is shuffled, and which values the `add_empty_filter_options` generator keys
later yield. -/
structure DfsCtx where
  scene : SceneStruct
  metadata : Metadata
  tnodes : List PNode
  tparams : List (String × String)
  constraints : List TConstraint
  evalQ : List PNode → List CVal
  isDegen : List PNode → CVal → Bool
  shuffleFOK : List FOKey → List FOKey
  shuffleVals : List String → List String
  shuffleTriv : List (FOKey × List Nat) → List (FOKey × List Nat)
  genexpContents : Nat → List (Option String)

/-- Source `special_nodes`. -/
def specialNodes : List String :=
  ["filter_unique", "filter_count", "filter_exist", "filter",
   "relate_filter", "relate_filter_unique", "relate_filter_count", "relate_filter_exist"]

/-- The evaluator's answer used as the object-id set of a plain filter
family expansion (any other value shape would raise in the source). -/
def cvalObjList : CVal → List Nat
  | .vobjs l => l
  | _ => []

/-- The evaluator's answer used as the anchor object index of a
`relate_filter` family expansion. -/
def cvalIdx : CVal → Nat
  | .vint n => n.toNat
  | _ => 0

/-- The `for k in filter_option_keys` body of the special-node expansion:
materialize the relate node (for the relate family), the per-attribute
filter nodes, and the trailing unique/count/exist node, then remap the
input-index map and advance to the next template node. -/
def dfsSpecialChild (ctx : DfsCtx) (state : DState) (next_node : PNode) (k : FOKey) :
    DState :=
  let sis := next_node.side_inputs.getD []
  let next_input0 := (dget state.input_map (next_node.inputs.getD 0 0)).getD 0
  let relateStep :
      List PNode × List (String × String) × List String × List (Option String) × Nat :=
    if next_node.ntype.startsWith "relate" then
      let param_name := sis.getD 0 ""
      let pk : String × List (Option String) :=
        match k with
        | .rel r fk => (r, fk)
        | other => ("", other.contents)
      let new_nodes : List PNode :=
        [{ ntype := "relate", inputs := [next_input0], side_inputs := some [pk.1] }]
      (new_nodes, dset state.vals param_name pk.1, sis.drop 1, pk.2,
        state.nodes.length + new_nodes.length - 1)
    else ([], state.vals, sis, k.contents, next_input0)
  let folded : List PNode × List (String × String) × Nat :=
    (relateStep.2.2.1.zip relateStep.2.2.2.1).foldl
      (fun acc pv =>
        let param_name := pv.1
        let param_type := (dget ctx.tparams param_name).getD ""
        match pv.2 with
        | some param_val =>
          let filter_type := "filter_" ++ param_type.toLower
          let nn := acc.1 ++
            [{ ntype := filter_type, inputs := [acc.2.2], side_inputs := some [param_val] }]
          (nn, dset acc.2.1 param_name param_val, state.nodes.length + nn.length - 1)
        | none =>
          let param_val :=
            if ctx.metadata.dataset = "CLEVR-v1.0" ∧ param_type = "Shape" then "thing"
            else ""
          (acc.1, dset acc.2.1 param_name param_val, acc.2.2))
      (relateStep.1, relateStep.2.1, relateStep.2.2.2.2)
  let new_nodes1 := folded.1
  let cur_next_vals := folded.2.1
  let extra_type : Option String := none
  let extra_type := if next_node.ntype.endsWith "unique" then some "unique" else extra_type
  let extra_type := if next_node.ntype.endsWith "count" then some "count" else extra_type
  let extra_type := if next_node.ntype.endsWith "exist" then some "exist" else extra_type
  let new_nodes2 :=
    match extra_type with
    | some et =>
      new_nodes1 ++
        [{ ntype := et,
           inputs := [(dget state.input_map (next_node.inputs.getD 0 0)).getD 0
             + new_nodes1.length] }]
    | none => new_nodes1
  let input_map1 := dset state.input_map state.next_template_node
    (state.nodes.length + new_nodes2.length - 1)
  { nodes := state.nodes ++ new_nodes2, vals := cur_next_vals,
    input_map := input_map1, next_template_node := state.next_template_node + 1 }

/-- The expansion step of the DFS (source lines following "Otherwise fetch
the next node from the template"): one successor per filter-option key, per
parameter value, or exactly one for a plain node. -/
def dfsExpand (ctx : DfsCtx) (state : DState) (answer : CVal) : List DState :=
  let next_node :=
    nodeShallowCopy (ctx.tnodes.getD state.next_template_node { ntype := "", inputs := [] })
  if next_node.ntype ∈ specialNodes then
    let filter_options :=
      if next_node.ntype.startsWith "relate_filter" then
        findRelateFilterOptions ctx.scene ctx.metadata ctx.shuffleTriv (cvalIdx answer)
          (next_node.ntype = "relate_filter_unique")
          (next_node.ntype = "relate_filter_count" ∨ next_node.ntype = "relate_filter_exist")
          (1 / 10)
      else
        let fo := findFilterOptions (cvalObjList answer) ctx.scene ctx.metadata
        let fo :=
          if next_node.ntype = "filter" then
            fo.filter (fun kv => decide (kv.1 ≠ FOKey.tup [none, none, none, none]))
          else fo
        if next_node.ntype = "filter_unique" then
          fo.filter (fun kv => decide (kv.2.length = 1))
        else
          let num_to_add :=
            if next_node.ntype = "filter_exist" then fo.length
            else (fo.filter (fun kv => decide (kv.2.length = 1))).length
          addEmptyFilterOptions ctx.genexpContents fo num_to_add
    let filter_option_keys := ctx.shuffleFOK (filter_options.map (·.1))
    filter_option_keys.map (fun k => dfsSpecialChild ctx state next_node k)
  else
    match next_node.side_inputs with
    | some sis =>
      let param_name := sis.getD 0 ""
      let param_type := (dget ctx.tparams param_name).getD ""
      let param_vals := ctx.shuffleVals ((dget ctx.metadata.types param_type).getD [])
      param_vals.map (fun val =>
        let input_map := dset state.input_map state.next_template_node state.nodes.length
        let cur_next_node : PNode :=
          { ntype := next_node.ntype,
            inputs := next_node.inputs.map (fun idx => (dget input_map idx).getD 0),
            side_inputs := some [val] }
        { nodes := state.nodes ++ [cur_next_node],
          vals := dset state.vals param_name val,
          input_map := input_map,
          next_template_node := state.next_template_node + 1 })
    | none =>
      let input_map := dset state.input_map state.next_template_node state.nodes.length
      let nn : PNode :=
        { ntype := next_node.ntype,
          inputs := next_node.inputs.map (fun idx => (dget input_map idx).getD 0) }
      [{ nodes := state.nodes ++ [nn], vals := state.vals,
         input_map := input_map, next_template_node := state.next_template_node + 1 }]

/-- One constraint check against the current state (the body of the
constraint loop).  An unrecognized constraint type is a fatal configuration
error in the source (`assert False`); theorems about well-formed templates
restrict to the three recognized kinds. -/
def constraintViolated (ctx : DfsCtx) (state : DState) (outputs : List CVal)
    (constraint : TConstraint) : Bool :=
  if constraint.ctype = "NEQ" then
    let p1 := (constraint.cparams.getD 0 (CPar.ps "")).asStr
    let p2 := (constraint.cparams.getD 1 (CPar.ps "")).asStr
    let v1 := dget state.vals p1
    let v2 := dget state.vals p2
    decide (v1 ≠ none ∧ v2 ≠ none ∧ v1 ≠ v2)
  else if constraint.ctype = "NULL" then
    let p := (constraint.cparams.getD 0 (CPar.ps "")).asStr
    let p_type := (dget ctx.tparams p).getD ""
    match dget state.vals p with
    | none => false
    | some v =>
      if p_type = "Shape" ∧ v ≠ "thing" then true
      else if p_type ≠ "Shape" ∧ v ≠ "" then true
      else false
  else if constraint.ctype = "OUT_NEQ" then
    let i := dget state.input_map (constraint.cparams.getD 0 (CPar.pn 0)).asNat
    let j := dget state.input_map (constraint.cparams.getD 1 (CPar.pn 0)).asNat
    match i, j with
    | some ci, some cj =>
      decide (outputs.getD ci (CVal.vstr "") = outputs.getD cj (CVal.vstr ""))
    | _, _ => false
  else false

/-- The rejection-sampling acceptance test (the two skips of the terminal
branch).  The source compares `cur > 1.1 * second_largest` on floats; for
the integer count magnitudes arising in a run this coincides with the exact
comparison `10*cur > 11*second_largest` used here.  `median_count` is
`max(sorted[len//2], 5)` exactly as in the source. -/
def rejectionPass (answer_counts : List (CVal × Nat)) (answer : CVal) : Bool :=
  let cur_answer_count := (dget answer_counts answer).getD 0
  let answer_counts_sorted := stableSort (fun a b => a ≤ b) (answer_counts.map (·.2))
  let second_largest := answer_counts_sorted.getD (answer_counts_sorted.length - 2) 0
  let median_count := max (answer_counts_sorted.getD (answer_counts_sorted.length / 2) 0) 5
  if 10 * cur_answer_count > 11 * second_largest then false
  else if cur_answer_count > 5 * median_count then false
  else true

/-- The evaluator answer of a state: the last entry of `all_outputs`
(an empty output list reads as the invalid marker, which the loop then
discards, matching the source where the evaluator always returns one output
per node of the nonempty node list). -/
def dfsAnswerOf (ctx : DfsCtx) (state : DState) : CVal :=
  (ctx.evalQ state.nodes).getLastD (CVal.vstr "__INVALID__")

/-- Size of the expansion tree below a state, by remaining template nodes;
the termination measure of the DFS loop. -/
def dfsTreeSize (ctx : DfsCtx) : Nat → DState → Nat
  | 0, _ => 1
  | r + 1, s => 1 + ((dfsExpand ctx s (dfsAnswerOf ctx s)).map (dfsTreeSize ctx r)).sum

/-- Total tree size over a stack. -/
def stackMeasure (ctx : DfsCtx) (stack : List DState) : Nat :=
  (stack.map
    (fun s => dfsTreeSize ctx (ctx.tnodes.length - s.next_template_node) s)).sum

/-- The `while states:` loop of `instantiate_templates_dfs`, with the stack
top at the head (children are therefore pushed reversed).  The fuel argument
makes the recursion structural; `stackMeasure` fuel provably suffices.
Returns (accepted states, answer counts, remaining stack at exit). -/
def dfsLoop (ctx : DfsCtx) (max_instances : Option Nat) :
    Nat → List DState → List DState → List (CVal × Nat) →
    List DState × List (CVal × Nat) × List DState
  | 0, states, final_states, answer_counts => (final_states, answer_counts, states)
  | _ + 1, [], final_states, answer_counts => (final_states, answer_counts, [])
  | fuel + 1, state :: rest, final_states, answer_counts =>
    let outputs := ctx.evalQ state.nodes
    let answer := outputs.getLastD (CVal.vstr "__INVALID__")
    if answer = CVal.vstr "__INVALID__" then
      dfsLoop ctx max_instances fuel rest final_states answer_counts
    else if ctx.constraints.any (fun c => constraintViolated ctx state outputs c) then
      dfsLoop ctx max_instances fuel rest final_states answer_counts
    else if state.next_template_node = ctx.tnodes.length then
      if ¬ (rejectionPass answer_counts answer = true) then
        dfsLoop ctx max_instances fuel rest final_states answer_counts
      else if (ctx.tnodes.any (fun n => decide (n.ntype = "relate")))
          && ctx.isDegen state.nodes answer then
        dfsLoop ctx max_instances fuel rest final_states answer_counts
      else
        let answer_counts1 :=
          dset answer_counts answer (((dget answer_counts answer).getD 0) + 1)
        let final_states1 := final_states ++ [{ state with ans := some answer }]
        if max_instances = some final_states1.length then
          (final_states1, answer_counts1, rest)
        else dfsLoop ctx max_instances fuel rest final_states1 answer_counts1
    else
      dfsLoop ctx max_instances fuel
        ((dfsExpand ctx state answer).reverse ++ rest) final_states answer_counts

/-- The initial state: node 0 copied over, empty bindings, `{0: 0}` input
map, next template node 1. -/
def initialDState (ctx : DfsCtx) : DState :=
  { nodes := [nodeShallowCopy (ctx.tnodes.getD 0 { ntype := "", inputs := [] })],
    vals := [], input_map := [(0, 0)], next_template_node := 1 }

/-- Source `instantiate_templates_dfs` (the search; the final text
realization of the accepted states is a separate concern). -/
def instantiateTemplatesDfs (ctx : DfsCtx) (max_instances : Option Nat)
    (answer_counts : List (CVal × Nat)) :
    List DState × List (CVal × Nat) × List DState :=
  dfsLoop ctx max_instances (stackMeasure ctx [initialDState ctx])
    [initialDState ctx] [] answer_counts

/- ---------------------------------------------------------------------
Concrete instances used by witnesses and counterexamples
--------------------------------------------------------------------- -/

/-- A scene with no objects. -/
def emptySceneStruct : SceneStruct :=
  { objects := [], relationships := [] }

/-- A three-object scene whose colors along x are red, gray, cyan. -/
def sceneW3 : SceneStruct :=
  { objects :=
      [{ size := "large", color := "red", material := "metal", shape := "sphere",
         coords := [0] },
       { size := "large", color := "gray", material := "metal", shape := "sphere",
         coords := [1] },
       { size := "large", color := "cyan", material := "metal", shape := "sphere",
         coords := [2] }],
    relationships := [] }

/-- A two-object scene listed against x order (red at x=5 before gray at
x=3), so the in-place sort reorders the list. -/
def c8Scene : SceneStruct :=
  { objects :=
      [{ size := "large", color := "red", material := "metal", shape := "sphere",
         coords := [5] },
       { size := "large", color := "gray", material := "metal", shape := "sphere",
         coords := [3] }],
    relationships := [] }

/-- Parameter bindings where the size pair differs but the color pair is
empty on both sides: some pair is non-empty and unequal, not every pair. -/
def c4ParamVals : List (String × String) :=
  [("<Z>", "large"), ("<C>", ""), ("<M>", ""), ("<S>", ""),
   ("<Z2>", "small"), ("<C2>", ""), ("<M2>", ""), ("<S2>", "")]

/-- Parameter bindings where all four pairs are bound, non-empty, unequal. -/
def c4AllBound : List (String × String) :=
  [("<Z>", "large"), ("<C>", "red"), ("<M>", "metal"), ("<S>", "cube"),
   ("<Z2>", "small"), ("<C2>", "blue"), ("<M2>", "rubber"), ("<S2>", "sphere")]

/-- CLEVR-v1.0 metadata with the color domain. -/
def metaW : Metadata :=
  { dataset := "CLEVR-v1.0",
    types := [("Color", ["red", "gray", "yellow", "cyan"])] }

/-- A one-node template context whose evaluator always answers "A". -/
def ctxW1 : DfsCtx :=
  { scene := sceneW3, metadata := metaW,
    tnodes := [{ ntype := "scene", inputs := [] }],
    tparams := [], constraints := [],
    evalQ := fun _ => [CVal.vstr "A"],
    isDegen := fun _ _ => false,
    shuffleFOK := id, shuffleVals := id, shuffleTriv := id,
    genexpContents := fun _ => [] }

/-- `ctxW1` with an NEQ constraint on two (unbound) parameters. -/
def ctxW2 : DfsCtx :=
  { ctxW1 with constraints := [⟨"NEQ", [CPar.ps "<C>", CPar.ps "<C2>"]⟩] }

/-- The state `ctxW1`'s search accepts. -/
def stW1 : DState :=
  { nodes := [{ ntype := "scene", inputs := [] }], vals := [], input_map := [(0, 0)],
    next_template_node := 1, ans := some (CVal.vstr "A") }

/-- One-node template context whose evaluator always answers `ansStr`
(standing in for the scenes of one answer-count window). -/
def c3Ctx (ansStr : String) : DfsCtx :=
  { scene := emptySceneStruct, metadata := metaW,
    tnodes := [{ ntype := "scene", inputs := [] }],
    tparams := [], constraints := [],
    evalQ := fun _ => [CVal.vstr ansStr],
    isDegen := fun _ _ => false,
    shuffleFOK := id, shuffleVals := id, shuffleTriv := id,
    genexpContents := fun _ => [] }

/-- A fresh per-template answer-count table over five possible answers, as
`reset_counts` produces. -/
def c3Counts0 : List (CVal × Nat) :=
  [(CVal.vstr "ansA", 0), (CVal.vstr "ansB", 0), (CVal.vstr "c", 0),
   (CVal.vstr "d", 0), (CVal.vstr "e", 0)]

/-- One driver step of a window: run the search on the next scene (whose
answer is `ansStr`) against the shared count table. -/
def c3Step (counts : List (CVal × Nat)) (ansStr : String) : List (CVal × Nat) :=
  (instantiateTemplatesDfs (c3Ctx ansStr) none counts).2.1

/-- An eleven-scene window alternating answers A and B: every acceptance
passes both rejection tests, and A's count reaches 6 while three answers
stay at 0. -/
def c3Window : List (CVal × Nat) :=
  ["ansA", "ansB", "ansA", "ansB", "ansA", "ansB", "ansA", "ansB",
   "ansA", "ansB", "ansA"].foldl c3Step c3Counts0

/-- A scene (with a precomputed filter-options cache) for the relation
index: anchor 0 is left of object 1; one trivial and one nontrivial
combination. -/
def c5Scene : SceneStruct :=
  { objects := [], relationships := [("left", [[1], []])],
    filter_options := some
      [([some "red", none, none, none], [1]),
       ([none, none, none, none], [0, 1])] }

/-- How an answer-count table can evolve across one window: a sequence of
increments, each made only at a moment when the incremented answer passes
the rejection-sampling test against the then-current table. -/
inductive CountEvol : List (CVal × Nat) → List (CVal × Nat) → Prop
  | refl (c : List (CVal × Nat)) : CountEvol c c
  | step (c c2 : List (CVal × Nat)) (a : CVal) :
      rejectionPass c a = true →
      CountEvol (dset c a (((dget c a).getD 0) + 1)) c2 →
      CountEvol c c2

/- ---------------------------------------------------------------------
Helper lemmas
--------------------------------------------------------------------- -/

theorem sinsert_perm (le : α → α → Bool) (a : α) (l : List α) :
    (sinsert le a l).Perm (a :: l) := by
  induction l with
  | nil => simp [sinsert]
  | cons b t ih =>
    simp only [sinsert]
    split
    · exact (ih.cons b).trans (List.Perm.swap a b t)
    · exact List.Perm.refl _

theorem stableSort_perm (le : α → α → Bool) (l : List α) :
    (stableSort le l).Perm l := by
  suffices h : ∀ acc, ((l.foldl (fun acc a => sinsert le a acc) acc)).Perm (l ++ acc) by
    simpa using h []
  induction l with
  | nil => intro acc; simp
  | cons b t ih =>
    intro acc
    simp only [List.foldl_cons]
    refine (ih _).trans ?_
    refine (List.Perm.append_left t (sinsert_perm le b acc)).trans ?_
    rw [List.cons_append]
    exact List.perm_middle

theorem deleteQuestionsLoop_mem (colors : List String) :
    ∀ (ql qs0 : List BQuestion) (ans0 : List String) (qs : List BQuestion)
      (ans : List String),
      deleteQuestionsLoop colors ql qs0 ans0 = some (qs, ans) →
      ∀ q ∈ qs,
        q ∈ qs0 ∨ (q ∈ ql ∧ q.2.1 ∈ colors ∧ (q.2.2 = "1st" ∨ q.2.2 = "2nd")) := by
  intro ql
  induction ql with
  | nil =>
    intro qs0 ans0 qs ans h q hq
    simp only [deleteQuestionsLoop, Option.some.injEq, Prod.mk.injEq] at h
    exact Or.inl (h.1 ▸ hq)
  | cons qh qt ih =>
    intro qs0 ans0 qs ans h q hq
    simp only [deleteQuestionsLoop] at h
    by_cases hc : qh.2.1 ∈ colors ∧ (qh.2.2 = "1st" ∨ qh.2.2 = "2nd")
    · rw [if_pos hc] at h
      cases hgo : getObjectByPosition (deleteObject qh.2.1 colors) qh.2.2 with
      | none => rw [hgo] at h; exact absurd h (by simp)
      | some a =>
        rw [hgo] at h
        rcases ih (qs0 ++ [qh]) (ans0 ++ [a]) qs ans h q hq with hin | hin
        · rcases List.mem_append.mp hin with hin | hin
          · exact Or.inl hin
          · have : q = qh := by simpa using hin
            exact Or.inr ⟨this ▸ List.mem_cons_self _ _, this ▸ hc.1, this ▸ hc.2⟩
        · exact Or.inr ⟨List.mem_cons_of_mem _ hin.1, hin.2⟩
    · rw [if_neg hc] at h
      rcases ih qs0 ans0 qs ans h q hq with hin | hin
      · exact Or.inl hin
      · exact Or.inr ⟨List.mem_cons_of_mem _ hin.1, hin.2⟩

/- ---------------------------------------------------------------------
C9 — `json_scene_to_objects` returns the sort's `None`
--------------------------------------------------------------------- -/

/-- C9: for every scene structure, `json_scene_to_objects` returns the null
value (the result of the in-place `list.sort`), never the object list. -/
theorem json_scene_to_objects_none (scene : SceneStruct) :
    (jsonSceneToObjects scene).2 = none := rfl

/- ---------------------------------------------------------------------
C10 — delete questions are only 1st/2nd with a present color
--------------------------------------------------------------------- -/

/-- C10: every question returned by `get_questions_and_answers_delete` is a
delete question whose color occurs in the scene's color list and whose
position is "1st" or "2nd"; in particular no "3rd" question is returned. -/
theorem delete_questions_positions_sound (scene : SceneStruct)
    (qs : List BQuestion) (ans : List String)
    (h : getQuestionsAndAnswersDelete scene = some (qs, ans)) :
    ∀ q ∈ qs, q.1 = "delete" ∧ q.2.1 ∈ (jsonSceneToColors scene).2 ∧
      (q.2.2 = "1st" ∨ q.2.2 = "2nd") ∧ q.2.2 ≠ "3rd" := by
  intro q hq
  have hmem := deleteQuestionsLoop_mem (jsonSceneToColors scene).2
    deleteQuestionsList [] [] qs ans h q hq
  rcases hmem with hin | ⟨hin, hcol, hpos⟩
  · exact absurd hin (List.not_mem_nil q)
  · have htype : ∀ p ∈ deleteQuestionsList, p.1 = "delete" := by decide
    refine ⟨htype q hin, hcol, hpos, ?_⟩
    rcases hpos with hp | hp <;> rw [hp] <;> decide

/-- Witness for C10 on the concrete three-object scene, at the returned
question (delete, red, 1st). -/
theorem delete_questions_positions_sound_witness :
    ("delete", "red", "1st").1 = "delete" ∧
    ("delete", "red", "1st").2.1 ∈ (jsonSceneToColors sceneW3).2 ∧
    (("delete", "red", "1st").2.2 = "1st" ∨ ("delete", "red", "1st").2.2 = "2nd") ∧
    ("delete", "red", "1st").2.2 ≠ "3rd" :=
  delete_questions_positions_sound sceneW3
    [("delete", "red", "1st"), ("delete", "red", "2nd"),
     ("delete", "gray", "1st"), ("delete", "gray", "2nd"),
     ("delete", "cyan", "1st"), ("delete", "cyan", "2nd")]
    ["gray", "cyan", "red", "cyan", "red", "gray"] (by decide)
    ("delete", "red", "1st") (by decide)

/- ---------------------------------------------------------------------
C6 — append questions: claim fails on tiny scenes, holds from 2 objects
--------------------------------------------------------------------- -/

/-- C6 counterexample: on the empty scene the append call raises
(`IndexError` on position "2nd"), so no question at all — in particular not
(append, "yellow", "1st") — is returned, contradicting "valid regardless of
the scene's contents". -/
theorem append_question_claim_fails :
    ¬ ∃ qs ans, getQuestionsAndAnswersAppend emptySceneStruct = some (qs, ans) ∧
      ("append", "yellow", "1st") ∈ qs := by
  rintro ⟨qs, ans, h, -⟩
  have hnone : getQuestionsAndAnswersAppend emptySceneStruct = none := rfl
  rw [hnone] at h
  exact Option.noConfusion h

/-- C6 amended: for every scene whose color list has at least two entries,
every append question (append, c, "1st") is returned and its answer is `c`
(the prepended color). -/
theorem append_first_always_valid (scene : SceneStruct) (a b : String)
    (t : List String) (hc : (jsonSceneToColors scene).2 = a :: b :: t)
    (c : String) (hcq : c ∈ queryColors) :
    ∃ qs ans, getQuestionsAndAnswersAppend scene = some (qs, ans) ∧
      (("append", c, "1st"), c) ∈ qs.zip ans := by
  have hloop : appendQuestionsLoop (a :: b :: t) appendQuestionsList [] [] =
      some (appendQuestionsList,
        ["red", a, b, "gray", a, b, "yellow", a, b, "cyan", a, b]) := rfl
  refine ⟨appendQuestionsList,
    ["red", a, b, "gray", a, b, "yellow", a, b, "cyan", a, b], ?_, ?_⟩
  · unfold getQuestionsAndAnswersAppend
    rw [hc]
    exact hloop
  · simp only [queryColors, List.mem_cons, List.not_mem_nil, or_false] at hcq
    rcases hcq with rfl | rfl | rfl | rfl
    · exact List.mem_cons_self _ _
    · exact List.mem_cons_of_mem _ (List.mem_cons_of_mem _
        (List.mem_cons_of_mem _ (List.mem_cons_self _ _)))
    · exact List.mem_cons_of_mem _ (List.mem_cons_of_mem _ (List.mem_cons_of_mem _
        (List.mem_cons_of_mem _ (List.mem_cons_of_mem _ (List.mem_cons_of_mem _
          (List.mem_cons_self _ _))))))
    · exact List.mem_cons_of_mem _ (List.mem_cons_of_mem _ (List.mem_cons_of_mem _
        (List.mem_cons_of_mem _ (List.mem_cons_of_mem _ (List.mem_cons_of_mem _
          (List.mem_cons_of_mem _ (List.mem_cons_of_mem _ (List.mem_cons_of_mem _
            (List.mem_cons_self _ _)))))))))

/-- Witness for the amended C6 on the three-object scene, color "yellow". -/
theorem append_first_always_valid_witness :
    ∃ qs ans, getQuestionsAndAnswersAppend sceneW3 = some (qs, ans) ∧
      (("append", "yellow", "1st"), "yellow") ∈ qs.zip ans :=
  append_first_always_valid sceneW3 "red" "gray" ["cyan"] (by decide)
    "yellow" (by decide)

/- ---------------------------------------------------------------------
C8 — the scene IS mutated: object order changes
--------------------------------------------------------------------- -/

/-- C8 counterexample: `json_scene_to_colors` sorts the scene's object list
in place, so on a scene listed against x order the object list afterwards
differs from the one before. -/
theorem scene_order_mutated :
    (jsonSceneToColors c8Scene).1.objects ≠ c8Scene.objects := by decide

/-- C8 amended: besides attaching the `_filter_options` cache, the
operations also reorder the object list in place (a permutation — the
stable sort by x); the multiset of objects, each object's attributes, and
the relationships are preserved, and `precompute_filter_options` changes
nothing but the attached cache. -/
theorem scene_mutation_scoped :
    (∀ s : SceneStruct,
      ((jsonSceneToColors s).1.objects).Perm s.objects ∧
      (jsonSceneToColors s).1.relationships = s.relationships ∧
      (jsonSceneToColors s).1.filter_options = s.filter_options ∧
      ((jsonSceneToObjects s).1.objects).Perm s.objects ∧
      (jsonSceneToObjects s).1.relationships = s.relationships ∧
      (jsonSceneToObjects s).1.filter_options = s.filter_options) ∧
    (∀ (s : SceneStruct) (m : Metadata),
      (precomputeFilterOptions s m).objects = s.objects ∧
      (precomputeFilterOptions s m).relationships = s.relationships ∧
      (precomputeFilterOptions s m).filter_options = some (buildAttributeMap s m)) := by
  constructor
  · intro s
    exact ⟨stableSort_perm _ _, rfl, rfl, stableSort_perm _ _, rfl, rfl⟩
  · intro s m
    exact ⟨rfl, rfl, rfl⟩

/- ---------------------------------------------------------------------
C4 — the other/another heuristic triggers on SOME unequal pair
--------------------------------------------------------------------- -/

/-- C4 counterexample: with only the size pair unequal (the color pair is
empty on both sides) not every pair is non-empty and unequal, yet the text
is rewritten — the heuristic fires on some pair, not on all pairs. -/
theorem other_heuristic_claim_fails :
    (¬ ∀ kp ∈ keyPairs,
        dget c4ParamVals kp.1 ≠ some "" ∧ dget c4ParamVals kp.2 ≠ some "" ∧
        dget c4ParamVals kp.1 ≠ dget c4ParamVals kp.2) ∧
    otherHeuristic "a other b" c4ParamVals ≠ "a other b" := by
  constructor
  · decide
  · decide

/-- C4 amended: the text is returned unchanged unless it contains " other "
or " another ", the key set is exactly the eight comparison slots, and SOME
pair is bound non-empty and unequal on both sides; in that case every
" other " becomes a space and every " another " becomes " a ". -/
theorem other_heuristic_some_pair (text : String) (pv : List (String × String)) :
    (((strContains text " other " = false ∧ strContains text " another " = false) ∨
        sameKeySet (pv.map (·.1)) targetKeys = false ∨
        (∀ kp ∈ keyPairs,
          ¬ (dget pv kp.1 ≠ some "" ∧ dget pv kp.2 ≠ some "" ∧
             dget pv kp.1 ≠ dget pv kp.2))) →
      otherHeuristic text pv = text) ∧
    (((strContains text " other " = true ∨ strContains text " another " = true) ∧
        sameKeySet (pv.map (·.1)) targetKeys = true ∧
        (∃ kp ∈ keyPairs,
          dget pv kp.1 ≠ some "" ∧ dget pv kp.2 ≠ some "" ∧
          dget pv kp.1 ≠ dget pv kp.2)) →
      otherHeuristic text pv =
        (let text1 :=
          if strContains text " other " then pyStrReplace text " other " " " else text
         if strContains text1 " another " then pyStrReplace text1 " another " " a "
         else text1)) := by
  constructor
  · intro h
    rcases h with ⟨h1, h2⟩ | h | h
    · simp [otherHeuristic, h1, h2]
    · by_cases hco : strContains text " other " = true <;>
        by_cases hca : strContains text " another " = true <;>
        simp [otherHeuristic, h, hco, hca]
    · have hz := h ("<Z>", "<Z2>") (by decide)
      have hc := h ("<C>", "<C2>") (by decide)
      have hm := h ("<M>", "<M2>") (by decide)
      have hs := h ("<S>", "<S2>") (by decide)
      by_cases hco : strContains text " other " = true <;>
        by_cases hca : strContains text " another " = true <;>
        by_cases hks : sameKeySet (pv.map (·.1)) targetKeys = true <;>
        simp [otherHeuristic, keyPairs, hco, hca, hks, hz, hc, hm, hs]
  · intro h
    obtain ⟨hcont, hks, kp, hkp, hcond⟩ := h
    have hro : keyPairs.any (fun kp =>
        decide (dget pv kp.1 ≠ some "" ∧ dget pv kp.2 ≠ some "" ∧
          dget pv kp.1 ≠ dget pv kp.2)) = true :=
      List.any_eq_true.mpr ⟨kp, hkp, by simpa using hcond⟩
    have hcnot : ¬ (¬ (strContains text " other " = true) ∧
        ¬ (strContains text " another " = true)) := by
      rcases hcont with hco | hca
      · exact fun hh => hh.1 hco
      · exact fun hh => hh.2 hca
    have hksnot : ¬ ¬ (sameKeySet (pv.map (·.1)) targetKeys = true) :=
      fun hh => hh hks
    simp only [otherHeuristic]
    rw [if_neg hcnot, if_neg hksnot, if_pos hro]

/-- Witness for the amended C4: all four pairs unequal, " another " gets
rewritten to " a ". -/
theorem other_heuristic_some_pair_witness :
    otherHeuristic "a another b" c4AllBound = "a a b" :=
  ((other_heuristic_some_pair "a another b" c4AllBound).2 (by decide)).trans (by decide)

/- ---------------------------------------------------------------------
DFS helper lemmas
--------------------------------------------------------------------- -/

theorem dfsSpecialChild_next (ctx : DfsCtx) (state : DState) (next_node : PNode)
    (k : FOKey) :
    (dfsSpecialChild ctx state next_node k).next_template_node =
      state.next_template_node + 1 := rfl

theorem dfsExpand_next (ctx : DfsCtx) (state : DState) (answer : CVal) :
    ∀ child ∈ dfsExpand ctx state answer,
      child.next_template_node = state.next_template_node + 1 := by
  intro child hc
  simp only [dfsExpand] at hc
  split at hc
  · obtain ⟨k, -, rfl⟩ := List.mem_map.mp hc
    rfl
  · split at hc
    · obtain ⟨v, -, rfl⟩ := List.mem_map.mp hc
      rfl
    · simp only [List.mem_singleton] at hc
      subst hc
      rfl

theorem dfsTreeSize_pos (ctx : DfsCtx) (r : Nat) (s : DState) :
    1 ≤ dfsTreeSize ctx r s := by
  cases r with
  | zero => simp [dfsTreeSize]
  | succ r => simp [dfsTreeSize]

theorem stackMeasure_cons (ctx : DfsCtx) (s : DState) (rest : List DState) :
    stackMeasure ctx (s :: rest) =
      dfsTreeSize ctx (ctx.tnodes.length - s.next_template_node) s +
        stackMeasure ctx rest := by
  simp [stackMeasure]

theorem stackMeasure_append (ctx : DfsCtx) (l1 l2 : List DState) :
    stackMeasure ctx (l1 ++ l2) = stackMeasure ctx l1 + stackMeasure ctx l2 := by
  simp [stackMeasure]

theorem stackMeasure_reverse (ctx : DfsCtx) (l : List DState) :
    stackMeasure ctx l.reverse = stackMeasure ctx l := by
  simp only [stackMeasure, List.map_reverse, List.sum_reverse]

theorem stackMeasure_expand (ctx : DfsCtx) (st : DState) (rest : List DState)
    (h : st.next_template_node < ctx.tnodes.length) :
    stackMeasure ctx ((dfsExpand ctx st (dfsAnswerOf ctx st)).reverse ++ rest) + 1 =
      stackMeasure ctx (st :: rest) := by
  rw [stackMeasure_append, stackMeasure_reverse, stackMeasure_cons]
  have hr : ctx.tnodes.length - st.next_template_node =
      (ctx.tnodes.length - (st.next_template_node + 1)) + 1 := by omega
  rw [hr]
  have hc : ∀ c ∈ dfsExpand ctx st (dfsAnswerOf ctx st),
      dfsTreeSize ctx (ctx.tnodes.length - c.next_template_node) c =
      dfsTreeSize ctx (ctx.tnodes.length - (st.next_template_node + 1)) c := by
    intro c hcm
    rw [dfsExpand_next ctx st _ c hcm]
  unfold stackMeasure
  rw [List.map_congr_left hc]
  simp only [dfsTreeSize]
  omega


theorem forall_mem_append_singleton {α : Type _} {P : α → Prop} {l : List α} {a : α}
    (hl : ∀ x ∈ l, P x) (ha : P a) : ∀ x ∈ l ++ [a], P x := by
  intro x hx
  rcases List.mem_append.mp hx with h | h
  · exact hl x h
  · simp only [List.mem_singleton] at h
    subst h
    exact ha

theorem dfsLoop_halts (ctx : DfsCtx) (maxI : Option Nat) :
    ∀ (fuel : Nat) (stack finals : List DState) (counts : List (CVal × Nat)),
      stackMeasure ctx stack ≤ fuel →
      (∀ s ∈ stack, s.next_template_node ≤ ctx.tnodes.length) →
      (dfsLoop ctx maxI fuel stack finals counts).2.2 = [] ∨
        maxI = some (dfsLoop ctx maxI fuel stack finals counts).1.length := by
  intro fuel
  induction fuel with
  | zero =>
    intro stack finals counts hm _
    left
    cases stack with
    | nil => rfl
    | cons s rest =>
      exfalso
      have h1 := dfsTreeSize_pos ctx (ctx.tnodes.length - s.next_template_node) s
      rw [stackMeasure_cons] at hm
      omega
  | succ fuel ih =>
    intro stack finals counts hm hinv
    cases stack with
    | nil => left; rfl
    | cons st rest =>
      have hmc := stackMeasure_cons ctx st rest
      have htp := dfsTreeSize_pos ctx (ctx.tnodes.length - st.next_template_node) st
      have hrest : stackMeasure ctx rest ≤ fuel := by omega
      have hrinv : ∀ s ∈ rest, s.next_template_node ≤ ctx.tnodes.length :=
        fun s hs => hinv s (List.mem_cons_of_mem _ hs)
      simp only [dfsLoop]
      split
      · exact ih rest finals counts hrest hrinv
      · split
        · exact ih rest finals counts hrest hrinv
        · split
          · split
            · exact ih rest finals counts hrest hrinv
            · split
              · exact ih rest finals counts hrest hrinv
              · split
                · rename_i hbreak
                  exact Or.inr hbreak
                · exact ih rest _ _ hrest hrinv
          · rename_i hterm
            have hlt : st.next_template_node < ctx.tnodes.length :=
              lt_of_le_of_ne (hinv st (List.mem_cons_self _ _)) hterm
            have hme := stackMeasure_expand ctx st rest hlt
            simp only [dfsAnswerOf] at hme
            refine ih _ finals counts (by omega) ?_
            intro s hs
            rcases List.mem_append.mp hs with hs | hs
            · have hnx := dfsExpand_next ctx st _ s (List.mem_reverse.mp hs)
              omega
            · exact hrinv s hs

theorem dfsLoop_finals_valid (ctx : DfsCtx) (maxI : Option Nat) :
    ∀ (fuel : Nat) (stack finals : List DState) (counts : List (CVal × Nat)),
      (∀ st ∈ finals, dfsAnswerOf ctx st ≠ CVal.vstr "__INVALID__" ∧
        st.ans = some (dfsAnswerOf ctx st)) →
      ∀ st ∈ (dfsLoop ctx maxI fuel stack finals counts).1,
        dfsAnswerOf ctx st ≠ CVal.vstr "__INVALID__" ∧
        st.ans = some (dfsAnswerOf ctx st) := by
  intro fuel
  induction fuel with
  | zero => intro stack finals counts hP; exact hP
  | succ fuel ih =>
    intro stack finals counts hP
    cases stack with
    | nil => exact hP
    | cons st rest =>
      simp only [dfsLoop]
      split
      · exact ih rest finals counts hP
      · rename_i hvalid
        split
        · exact ih rest finals counts hP
        · split
          · split
            · exact ih rest finals counts hP
            · split
              · exact ih rest finals counts hP
              · split
                · exact forall_mem_append_singleton hP ⟨hvalid, rfl⟩
                · exact ih rest _ _ (forall_mem_append_singleton hP ⟨hvalid, rfl⟩)
          · exact ih _ finals counts hP

theorem dfsLoop_finals_constraints (ctx : DfsCtx) (maxI : Option Nat) :
    ∀ (fuel : Nat) (stack finals : List DState) (counts : List (CVal × Nat)),
      (∀ st ∈ finals, ∀ c ∈ ctx.constraints,
        constraintViolated ctx st (ctx.evalQ st.nodes) c = false) →
      ∀ st ∈ (dfsLoop ctx maxI fuel stack finals counts).1,
        ∀ c ∈ ctx.constraints,
          constraintViolated ctx st (ctx.evalQ st.nodes) c = false := by
  intro fuel
  induction fuel with
  | zero => intro stack finals counts hP; exact hP
  | succ fuel ih =>
    intro stack finals counts hP
    cases stack with
    | nil => exact hP
    | cons st rest =>
      simp only [dfsLoop]
      split
      · exact ih rest finals counts hP
      · split
        · exact ih rest finals counts hP
        · rename_i hnoviol
          have hPst : ∀ c ∈ ctx.constraints,
              constraintViolated ctx st (ctx.evalQ st.nodes) c = false := by
            intro c hcmem
            have hany : (ctx.constraints.any
                (fun c => constraintViolated ctx st (ctx.evalQ st.nodes) c)) = false := by
              rcases hb : ctx.constraints.any
                  (fun c => constraintViolated ctx st (ctx.evalQ st.nodes) c) with _ | _
              · rfl
              · exact absurd hb hnoviol
            rw [List.any_eq_false] at hany
            have := hany c hcmem
            rcases hb2 : constraintViolated ctx st (ctx.evalQ st.nodes) c with _ | _
            · rfl
            · exact absurd hb2 this
          split
          · split
            · exact ih rest finals counts hP
            · split
              · exact ih rest finals counts hP
              · split
                · exact forall_mem_append_singleton hP hPst
                · exact ih rest _ _ (forall_mem_append_singleton hP hPst)
          · exact ih _ finals counts hP

theorem constraintViolated_false_cases (ctx : DfsCtx) (st : DState) (c : TConstraint)
    (h : constraintViolated ctx st (ctx.evalQ st.nodes) c = false) :
    (c.ctype = "NEQ" → ∀ p1 p2, c.cparams = [CPar.ps p1, CPar.ps p2] →
      ∀ v1 v2, dget st.vals p1 = some v1 → dget st.vals p2 = some v2 → v1 = v2) ∧
    (c.ctype = "NULL" → ∀ p, c.cparams.getD 0 (CPar.ps "") = CPar.ps p →
      ∀ v, dget st.vals p = some v →
        ((dget ctx.tparams p).getD "" = "Shape" → v = "thing") ∧
        ((dget ctx.tparams p).getD "" ≠ "Shape" → v = "")) ∧
    (c.ctype = "OUT_NEQ" → ∀ i j, c.cparams = [CPar.pn i, CPar.pn j] →
      ∀ ci cj, dget st.input_map i = some ci → dget st.input_map j = some cj →
        (ctx.evalQ st.nodes).getD ci (CVal.vstr "") ≠
          (ctx.evalQ st.nodes).getD cj (CVal.vstr "")) := by
  refine ⟨?_, ?_, ?_⟩
  · intro hty p1 p2 hps v1 v2 hv1 hv2
    rw [constraintViolated, if_pos hty, hps] at h
    simp only [List.getD_cons_zero, List.getD_cons_succ, CPar.asStr,
      decide_eq_false_iff_not] at h
    rw [hv1, hv2] at h
    by_contra hne
    exact h ⟨by simp, by simp, by simp [hne]⟩
  · intro hty p hp v hv
    have hty1 : ¬ (c.ctype = "NEQ") := by rw [hty]; decide
    rw [constraintViolated, if_neg hty1, if_pos hty, hp] at h
    simp only [CPar.asStr, hv] at h
    constructor
    · intro hshape
      by_contra hne
      rw [if_pos (⟨hshape, hne⟩ : _ ∧ _)] at h
      exact absurd h (by simp)
    · intro hshape
      by_contra hne
      rw [if_neg (fun hc : _ ∧ _ => hshape hc.1), if_pos (⟨hshape, hne⟩ : _ ∧ _)] at h
      exact absurd h (by simp)
  · intro hty i j hps ci cj hci hcj
    have hty1 : ¬ (c.ctype = "NEQ") := by rw [hty]; decide
    have hty2 : ¬ (c.ctype = "NULL") := by rw [hty]; decide
    rw [constraintViolated, if_neg hty1, if_neg hty2, if_pos hty, hps] at h
    simp only [List.getD_cons_zero, List.getD_cons_succ, CPar.asNat] at h
    rw [hci, hcj] at h
    simpa using h

/- ---------------------------------------------------------------------
C1 — accepted states evaluate to a non-invalid answer
--------------------------------------------------------------------- -/

/-- C1: every state the Template Expander appends to the accepted list
carries a recorded answer, that answer is the evaluator's final output on
the state's complete node sequence, and it differs from the invalid marker
"__INVALID__". -/
theorem accepted_states_valid (ctx : DfsCtx) (maxI : Option Nat)
    (counts : List (CVal × Nat)) :
    ∀ st ∈ (instantiateTemplatesDfs ctx maxI counts).1,
      (ctx.evalQ st.nodes).getLastD (CVal.vstr "__INVALID__") ≠ CVal.vstr "__INVALID__" ∧
      st.ans = some ((ctx.evalQ st.nodes).getLastD (CVal.vstr "__INVALID__")) := by
  intro st hst
  exact dfsLoop_finals_valid ctx maxI _ _ [] counts (by simp) st hst

/-- Witness for C1: the one-node context accepts `stW1`, whose evaluation is
"A" ≠ "__INVALID__". -/
theorem accepted_states_valid_witness :
    (ctxW1.evalQ stW1.nodes).getLastD (CVal.vstr "__INVALID__") ≠ CVal.vstr "__INVALID__" ∧
    stW1.ans = some ((ctxW1.evalQ stW1.nodes).getLastD (CVal.vstr "__INVALID__")) :=
  accepted_states_valid ctxW1 none [] stW1 (by decide)

/- ---------------------------------------------------------------------
C2 — accepted states satisfy every declared constraint
--------------------------------------------------------------------- -/

/-- C2: for every accepted state and every constraint of its template — NEQ:
two bound parameters are equal; NULL: a bound parameter is "thing" for Shape
and "" otherwise; OUT_NEQ: two mapped node outputs differ. -/
theorem accepted_constraints_hold (ctx : DfsCtx) (maxI : Option Nat)
    (counts : List (CVal × Nat)) :
    ∀ st ∈ (instantiateTemplatesDfs ctx maxI counts).1,
      ∀ c ∈ ctx.constraints,
        (c.ctype = "NEQ" → ∀ p1 p2, c.cparams = [CPar.ps p1, CPar.ps p2] →
          ∀ v1 v2, dget st.vals p1 = some v1 → dget st.vals p2 = some v2 → v1 = v2) ∧
        (c.ctype = "NULL" → ∀ p, c.cparams.getD 0 (CPar.ps "") = CPar.ps p →
          ∀ v, dget st.vals p = some v →
            ((dget ctx.tparams p).getD "" = "Shape" → v = "thing") ∧
            ((dget ctx.tparams p).getD "" ≠ "Shape" → v = "")) ∧
        (c.ctype = "OUT_NEQ" → ∀ i j, c.cparams = [CPar.pn i, CPar.pn j] →
          ∀ ci cj, dget st.input_map i = some ci → dget st.input_map j = some cj →
            (ctx.evalQ st.nodes).getD ci (CVal.vstr "") ≠
              (ctx.evalQ st.nodes).getD cj (CVal.vstr "")) := by
  intro st hst c hc
  exact constraintViolated_false_cases ctx st c
    (dfsLoop_finals_constraints ctx maxI _ _ [] counts (by simp) st hst c hc)

/-- Witness for C2: the accepted state of the NEQ-constrained context
satisfies the NEQ reading (vacuously bound-free here, with the membership
and constraint hypotheses discharged concretely). -/
theorem accepted_constraints_hold_witness :
    (TConstraint.ctype ⟨"NEQ", [CPar.ps "<C>", CPar.ps "<C2>"]⟩ = "NEQ" →
      ∀ p1 p2,
        TConstraint.cparams ⟨"NEQ", [CPar.ps "<C>", CPar.ps "<C2>"]⟩ =
          [CPar.ps p1, CPar.ps p2] →
        ∀ v1 v2, dget stW1.vals p1 = some v1 → dget stW1.vals p2 = some v2 →
          v1 = v2) ∧
    (TConstraint.ctype ⟨"NEQ", [CPar.ps "<C>", CPar.ps "<C2>"]⟩ = "NULL" →
      ∀ p,
        (TConstraint.cparams ⟨"NEQ", [CPar.ps "<C>", CPar.ps "<C2>"]⟩).getD 0
          (CPar.ps "") = CPar.ps p →
        ∀ v, dget stW1.vals p = some v →
          ((dget ctxW2.tparams p).getD "" = "Shape" → v = "thing") ∧
          ((dget ctxW2.tparams p).getD "" ≠ "Shape" → v = "")) ∧
    (TConstraint.ctype ⟨"NEQ", [CPar.ps "<C>", CPar.ps "<C2>"]⟩ = "OUT_NEQ" →
      ∀ i j,
        TConstraint.cparams ⟨"NEQ", [CPar.ps "<C>", CPar.ps "<C2>"]⟩ =
          [CPar.pn i, CPar.pn j] →
        ∀ ci cj, dget stW1.input_map i = some ci → dget stW1.input_map j = some cj →
          (ctxW2.evalQ stW1.nodes).getD ci (CVal.vstr "") ≠
            (ctxW2.evalQ stW1.nodes).getD cj (CVal.vstr "")) :=
  accepted_constraints_hold ctxW2 none [] stW1 (by decide)
    ⟨"NEQ", [CPar.ps "<C>", CPar.ps "<C2>"]⟩ (by decide)

/- ---------------------------------------------------------------------
C7 — the DFS terminates: stack empties or the cap is reached
--------------------------------------------------------------------- -/

/-- C7: (1) every pushed successor's next-template-node index is exactly one
greater than its parent's, and never exceeds the node count when the parent
was expandable; (2) with fuel equal to the expansion-tree measure, the loop
of `instantiate_templates_dfs` halts with an empty stack or, at the cap,
with the accepted count equal to `max_instances` (the rest of the stack is
abandoned); (3) in particular a whole run on a nonempty template ends that
way. -/
theorem dfs_expansion_terminates :
    (∀ (ctx : DfsCtx) (state : DState) (answer : CVal),
      ∀ child ∈ dfsExpand ctx state answer,
        child.next_template_node = state.next_template_node + 1 ∧
        (state.next_template_node < ctx.tnodes.length →
          child.next_template_node ≤ ctx.tnodes.length)) ∧
    (∀ (ctx : DfsCtx) (maxI : Option Nat) (stack finals : List DState)
      (counts : List (CVal × Nat)),
      (∀ s ∈ stack, s.next_template_node ≤ ctx.tnodes.length) →
      (dfsLoop ctx maxI (stackMeasure ctx stack) stack finals counts).2.2 = [] ∨
        maxI = some
          (dfsLoop ctx maxI (stackMeasure ctx stack) stack finals counts).1.length) ∧
    (∀ (ctx : DfsCtx) (maxI : Option Nat) (counts : List (CVal × Nat)),
      1 ≤ ctx.tnodes.length →
      (instantiateTemplatesDfs ctx maxI counts).2.2 = [] ∨
        maxI = some (instantiateTemplatesDfs ctx maxI counts).1.length) := by
  refine ⟨?_, ?_, ?_⟩
  · intro ctx state answer child hchild
    have h1 := dfsExpand_next ctx state answer child hchild
    exact ⟨h1, fun hlt => by omega⟩
  · intro ctx maxI stack finals counts hinv
    exact dfsLoop_halts ctx maxI (stackMeasure ctx stack) stack finals counts
      (Nat.le_refl _) hinv
  · intro ctx maxI counts hlen
    refine dfsLoop_halts ctx maxI _ _ [] counts (Nat.le_refl _) ?_
    intro s hs
    simp only [List.mem_singleton] at hs
    subst hs
    exact hlen

/-- Witness for C7: a full run on the concrete one-node context halts with
an empty remaining stack or exactly one accepted state. -/
theorem dfs_expansion_terminates_witness :
    (instantiateTemplatesDfs ctxW1 (some 1) []).2.2 = [] ∨
      some 1 = some (instantiateTemplatesDfs ctxW1 (some 1) []).1.length :=
  dfs_expansion_terminates.2.2 ctxW1 (some 1) [] (by decide)

/- ---------------------------------------------------------------------
C3 — answer balance: the claimed standing bound fails; the per-acceptance
guard holds
--------------------------------------------------------------------- -/

theorem dfsLoop_counts_evol (ctx : DfsCtx) (maxI : Option Nat) :
    ∀ (fuel : Nat) (stack finals : List DState) (counts : List (CVal × Nat)),
      CountEvol counts (dfsLoop ctx maxI fuel stack finals counts).2.1 := by
  intro fuel
  induction fuel with
  | zero => intro stack finals counts; exact CountEvol.refl counts
  | succ fuel ih =>
    intro stack finals counts
    cases stack with
    | nil => exact CountEvol.refl counts
    | cons st rest =>
      simp only [dfsLoop]
      split
      · exact ih rest finals counts
      · split
        · exact ih rest finals counts
        · split
          · split
            · exact ih rest finals counts
            · rename_i hpass
              have hpass' : rejectionPass counts
                  ((ctx.evalQ st.nodes).getLastD (CVal.vstr "__INVALID__")) = true := by
                rcases hb : rejectionPass counts
                    ((ctx.evalQ st.nodes).getLastD (CVal.vstr "__INVALID__")) with _ | _
                · exact absurd hb (fun hb2 => hpass (by rw [hb2]; decide))
                · rfl
              split
              · exact ih rest finals counts
              · split
                · exact CountEvol.step _ _ _ hpass' (CountEvol.refl _)
                · exact CountEvol.step _ _ _ hpass' (ih rest _ _)
          · exact ih _ finals counts

set_option maxRecDepth 8000 in
/-- C3 counterexample: after an eleven-scene window alternating two answers,
answer "ansA" reaches count 6 while the ascending-sorted per-answer counts
are [0,0,0,5,6]: the middle element (the claim's median) is 0 and the
second-largest is 5, so the count exceeds both max(5, 5×median) = 5 and
1.1×second_largest = 5.5, and "ansA" (count 6) is not the answer achieving
the second-largest count (5). -/
theorem answer_balance_claim_fails :
    (dget c3Window (CVal.vstr "ansA")).getD 0 = 6 ∧
    (stableSort (fun a b => a ≤ b) (c3Window.map (·.2))).getD
      ((stableSort (fun a b => a ≤ b) (c3Window.map (·.2))).length / 2) 0 = 0 ∧
    (stableSort (fun a b => a ≤ b) (c3Window.map (·.2))).getD
      ((stableSort (fun a b => a ≤ b) (c3Window.map (·.2))).length - 2) 0 = 5 ∧
    ¬ ((6 : Nat) ≤ max 5 (5 * 0)) ∧ ¬ ((10 * 6 : Nat) ≤ 11 * 5) ∧
    (dget c3Window (CVal.vstr "ansA")).getD 0 ≠
      (stableSort (fun a b => a ≤ b) (c3Window.map (·.2))).getD
        ((stableSort (fun a b => a ≤ b) (c3Window.map (·.2))).length - 2) 0 := by
  refine ⟨by decide, by decide, by decide, by decide, by decide, by decide⟩

/-- C3 amended: what the engine actually guarantees is a guard at each
acceptance, not a standing bound — (1) an answer passes the rejection test
only while its pre-increment count is at most 1.1× the second-largest count
and at most 5×max(5, median) of the current table (the code's `5.0 *
max(counts[len//2], 5)`, not the claimed `max(5, 5×median)`); (2) across any
run of the search loop, the count table evolves from its input only by such
guarded increments. -/
theorem answer_balance_guarded :
    (∀ (counts : List (CVal × Nat)) (ans : CVal),
      rejectionPass counts ans = true →
      10 * ((dget counts ans).getD 0) ≤
        11 * ((stableSort (fun a b => a ≤ b) (counts.map (·.2))).getD
          ((stableSort (fun a b => a ≤ b) (counts.map (·.2))).length - 2) 0) ∧
      ((dget counts ans).getD 0) ≤
        5 * max ((stableSort (fun a b => a ≤ b) (counts.map (·.2))).getD
          ((stableSort (fun a b => a ≤ b) (counts.map (·.2))).length / 2) 0) 5) ∧
    (∀ (ctx : DfsCtx) (maxI : Option Nat) (fuel : Nat) (stack finals : List DState)
      (counts : List (CVal × Nat)),
      CountEvol counts (dfsLoop ctx maxI fuel stack finals counts).2.1) := by
  constructor
  · intro counts ans h
    rw [rejectionPass] at h
    split at h
    · exact absurd h (by decide)
    · split at h
      · exact absurd h (by decide)
      · rename_i h1 h2
        omega
  · exact fun ctx maxI fuel stack finals counts =>
      dfsLoop_counts_evol ctx maxI fuel stack finals counts

/-- Witness for the amended C3: on the fresh five-answer table, answer
"ansA" passes the guard with count 0, and a concrete loop run evolves the
table by guarded steps. -/
theorem answer_balance_guarded_witness :
    (10 * ((dget c3Counts0 (CVal.vstr "ansA")).getD 0) ≤
      11 * ((stableSort (fun a b => a ≤ b) (c3Counts0.map (·.2))).getD
        ((stableSort (fun a b => a ≤ b) (c3Counts0.map (·.2))).length - 2) 0) ∧
    ((dget c3Counts0 (CVal.vstr "ansA")).getD 0) ≤
      5 * max ((stableSort (fun a b => a ≤ b) (c3Counts0.map (·.2))).getD
        ((stableSort (fun a b => a ≤ b) (c3Counts0.map (·.2))).length / 2) 0) 5) ∧
    CountEvol c3Counts0
      (dfsLoop (c3Ctx "ansA") none 1 [initialDState (c3Ctx "ansA")] [] c3Counts0).2.1 :=
  ⟨answer_balance_guarded.1 c3Counts0 (CVal.vstr "ansA") (by decide),
   answer_balance_guarded.2 (c3Ctx "ansA") none 1 [initialDState (c3Ctx "ansA")] []
     c3Counts0⟩

/- ---------------------------------------------------------------------
C5 — trivial-fraction count in the relation index
--------------------------------------------------------------------- -/

theorem dset_of_not_mem [DecidableEq κ] (m : List (κ × ν)) (k : κ) (v : ν)
    (h : k ∉ m.map Prod.fst) : dset m k v = m ++ [(k, v)] := by
  rw [dset, if_neg]
  intro hc
  obtain ⟨kv, hkv, hd⟩ := List.any_eq_true.mp hc
  rw [decide_eq_true_eq] at hd
  exact h (hd ▸ List.mem_map_of_mem Prod.fst hkv)

theorem foldl_dset_length [DecidableEq κ] :
    ∀ (l m : List (κ × ν)),
      (∀ p ∈ l, p.1 ∉ m.map Prod.fst) → (l.map Prod.fst).Nodup →
      (l.foldl (fun m2 kv => dset m2 kv.1 kv.2) m).length = m.length + l.length := by
  intro l
  induction l with
  | nil => intro m _ _; simp
  | cons p t ih =>
    intro m hfresh hnd
    simp only [List.foldl_cons]
    rw [dset_of_not_mem m p.1 p.2 (hfresh p (List.mem_cons_self _ _))]
    simp only [List.map_cons, List.nodup_cons] at hnd
    have hfresh' : ∀ q ∈ t, q.1 ∉ (m ++ [(p.1, p.2)]).map Prod.fst := by
      intro q hq hmem
      simp only [List.map_append, List.map_cons, List.map_nil, List.mem_append,
        List.mem_singleton] at hmem
      rcases hmem with hmem | hmem
      · exact hfresh q (List.mem_cons_of_mem _ hq) hmem
      · exact hnd.1 (hmem ▸ List.mem_map_of_mem Prod.fst hq)
    rw [ih (m ++ [(p.1, p.2)]) hfresh' hnd.2]
    simp only [List.length_append, List.length_cons, List.length_nil]
    omega

theorem relateStepFn_cases (object_idx : Nat) (unique include_zero : Bool)
    (acc : List (FOKey × List Nat) × List (FOKey × List Nat))
    (pr : (String × List (List Nat)) × (List (Option String) × List Nat)) :
    relateStepFn object_idx unique include_zero acc pr = acc ∨
    (∃ v, relateStepFn object_idx unique include_zero acc pr =
      (dset acc.1 (FOKey.rel pr.1.1 pr.2.1) v, acc.2)) ∨
    (∃ v, relateStepFn object_idx unique include_zero acc pr =
      (acc.1, dset acc.2 (FOKey.rel pr.1.1 pr.2.1) v)) := by
  simp only [relateStepFn]
  split
  · exact Or.inl rfl
  · split
    · exact Or.inl rfl
    · split
      · exact Or.inr (Or.inr ⟨_, rfl⟩)
      · exact Or.inr (Or.inl ⟨_, rfl⟩)

theorem relateFold_keys (object_idx : Nat) (unique include_zero : Bool) :
    ∀ (pl : List ((String × List (List Nat)) × (List (Option String) × List Nat)))
      (o t : List (FOKey × List Nat)),
      ((o.map Prod.fst ++ t.map Prod.fst) ++
        pl.map (fun pr => FOKey.rel pr.1.1 pr.2.1)).Nodup →
      ((pl.foldl (relateStepFn object_idx unique include_zero) (o, t)).1.map Prod.fst ++
        (pl.foldl (relateStepFn object_idx unique include_zero) (o, t)).2.map
          Prod.fst).Nodup := by
  intro pl
  induction pl with
  | nil =>
    intro o t h
    simpa using h
  | cons pr tl ih =>
    intro o t h
    simp only [List.map_cons] at h
    have hk : FOKey.rel pr.1.1 pr.2.1 ∉ o.map Prod.fst ∧
        FOKey.rel pr.1.1 pr.2.1 ∉ t.map Prod.fst := by
      rw [List.nodup_append] at h
      have hmem : FOKey.rel pr.1.1 pr.2.1 ∈
          FOKey.rel pr.1.1 pr.2.1 :: tl.map (fun pr => FOKey.rel pr.1.1 pr.2.1) :=
        List.mem_cons_self _ _
      constructor
      · intro hin
        exact h.2.2 (List.mem_append.mpr (Or.inl hin)) hmem
      · intro hin
        exact h.2.2 (List.mem_append.mpr (Or.inr hin)) hmem
    simp only [List.foldl_cons]
    rcases relateStepFn_cases object_idx unique include_zero (o, t) pr with
      hstep | ⟨v, hstep⟩ | ⟨v, hstep⟩
    · rw [hstep]
      apply ih
      refine h.sublist ?_
      exact List.Sublist.append_left (List.sublist_cons_self _ _) _
    · rw [hstep]
      apply ih
      rw [dset_of_not_mem _ _ _ hk.1]
      simp only [List.map_append, List.map_cons, List.map_nil]
      have hperm : (((o.map Prod.fst ++ [FOKey.rel pr.1.1 pr.2.1]) ++ t.map Prod.fst) ++
          tl.map (fun pr => FOKey.rel pr.1.1 pr.2.1)).Perm
          ((o.map Prod.fst ++ t.map Prod.fst) ++
            (FOKey.rel pr.1.1 pr.2.1 :: tl.map (fun pr => FOKey.rel pr.1.1 pr.2.1))) := by
        simp only [List.append_assoc, List.singleton_append, List.cons_append,
          List.nil_append]
        exact List.Perm.append_left _ List.perm_middle.symm
      exact hperm.nodup_iff.mpr h
    · rw [hstep]
      apply ih
      rw [dset_of_not_mem _ _ _ hk.2]
      simp only [List.map_append, List.map_cons, List.map_nil]
      have hperm : ((o.map Prod.fst ++ (t.map Prod.fst ++ [FOKey.rel pr.1.1 pr.2.1])) ++
          tl.map (fun pr => FOKey.rel pr.1.1 pr.2.1)).Perm
          ((o.map Prod.fst ++ t.map Prod.fst) ++
            (FOKey.rel pr.1.1 pr.2.1 :: tl.map (fun pr => FOKey.rel pr.1.1 pr.2.1))) := by
        simp only [List.append_assoc, List.singleton_append, List.cons_append,
          List.nil_append]
        exact List.Perm.refl _
      exact hperm.nodup_iff.mpr h

theorem map_pair_key_nodup (r : String × List (List Nat))
    (fos : List (List (Option String) × List Nat))
    (hfo : (fos.map Prod.fst).Nodup) :
    ((fos.map (fun fo => (r, fo))).map
      (fun pr : (String × List (List Nat)) × (List (Option String) × List Nat) =>
        FOKey.rel pr.1.1 pr.2.1)).Nodup := by
  induction fos with
  | nil => simp
  | cons fo ft ih =>
    simp only [List.map_cons, List.nodup_cons] at hfo ⊢
    refine ⟨?_, ih hfo.2⟩
    intro hmem
    simp only [List.map_map, List.mem_map, Function.comp] at hmem
    obtain ⟨fo2, hfo2, heq⟩ := hmem
    injection heq with h1 h2
    exact hfo.1 (h2 ▸ List.mem_map_of_mem Prod.fst hfo2)

theorem pair_keys_nodup (fos : List (List (Option String) × List Nat))
    (hfo : (fos.map Prod.fst).Nodup) :
    ∀ (rels : List (String × List (List Nat))), (rels.map Prod.fst).Nodup →
      ((rels.flatMap (fun rp => fos.map (fun fo => (rp, fo)))).map
        (fun pr => FOKey.rel pr.1.1 pr.2.1)).Nodup := by
  intro rels
  induction rels with
  | nil => intro _; simp
  | cons r rs ih =>
    intro hrel
    simp only [List.map_cons, List.nodup_cons] at hrel
    simp only [List.flatMap_cons, List.map_append]
    rw [List.nodup_append]
    refine ⟨map_pair_key_nodup r fos hfo, ih hrel.2, ?_⟩
    intro a ha1 ha2
    obtain ⟨pr1, hpr1, rfl⟩ := List.mem_map.mp ha1
    obtain ⟨fo1, hfo1, rfl⟩ := List.mem_map.mp hpr1
    obtain ⟨pr2, hpr2, heq⟩ := List.mem_map.mp ha2
    obtain ⟨q, hq, hpr2q⟩ := List.mem_flatMap.mp hpr2
    obtain ⟨fo2, hfo2m, rfl⟩ := List.mem_map.mp hpr2q
    injection heq with h1 h2
    exact hrel.1 (h1 ▸ List.mem_map_of_mem Prod.fst hq)

/-- C5: the mapping `find_relate_filter_options` returns holds its N
nontrivial pairs plus exactly `round(N·f/(1−f))` trivial pairs, clipped to
the number of trivial pairs available. -/
theorem relate_trivial_fraction (scene : SceneStruct) (metadata : Metadata)
    (shuffleT : List (FOKey × List Nat) → List (FOKey × List Nat))
    (object_idx : Nat) (unique include_zero : Bool) (f : ℚ)
    (hshuf : ∀ l, (shuffleT l).Perm l)
    (hrel : (scene.relationships.map Prod.fst).Nodup)
    (hfo : ((sceneFO scene metadata).map Prod.fst).Nodup) :
    (findRelateFilterOptions scene metadata shuffleT object_idx unique
        include_zero f).length =
      (relateClassify scene metadata object_idx unique include_zero).1.length +
        min ((pyRound (((relateClassify scene metadata object_idx unique
              include_zero).1.length : ℚ) * f / (1 - f))).toNat)
          (relateClassify scene metadata object_idx unique include_zero).2.length := by
  have hkeys : (((relateClassify scene metadata object_idx unique include_zero).1.map
      Prod.fst) ++ ((relateClassify scene metadata object_idx unique
        include_zero).2.map Prod.fst)).Nodup := by
    rw [relateClassify]
    apply relateFold_keys
    simpa using pair_keys_nodup (sceneFO scene metadata) hfo scene.relationships hrel
  rw [List.nodup_append] at hkeys
  obtain ⟨-, htk, hdisj⟩ := hkeys
  have hperm := hshuf (relateClassify scene metadata object_idx unique include_zero).2
  rw [findRelateFilterOptions]
  rw [foldl_dset_length]
  · rw [List.length_take, hperm.length_eq]
  · intro p hp hmem
    have hp2 : p ∈ (relateClassify scene metadata object_idx unique include_zero).2 :=
      hperm.mem_iff.mp (List.mem_of_mem_take hp)
    exact hdisj hmem (List.mem_map_of_mem Prod.fst hp2)
  · have hsh : ((shuffleT (relateClassify scene metadata object_idx unique
        include_zero).2).map Prod.fst).Nodup :=
      (hperm.map Prod.fst).nodup_iff.mpr htk
    rw [List.map_take]
    exact hsh.sublist (List.take_sublist _ _)

/-- Witness for C5 on the concrete two-entry scene: one nontrivial and one
trivial combination. -/
theorem relate_trivial_fraction_witness :
    (findRelateFilterOptions c5Scene metaW id 0 false false (1 / 10)).length =
      (relateClassify c5Scene metaW 0 false false).1.length +
        min ((pyRound (((relateClassify c5Scene metaW 0 false false).1.length : ℚ) *
            (1 / 10) / (1 - 1 / 10))).toNat)
          (relateClassify c5Scene metaW 0 false false).2.length :=
  relate_trivial_fraction c5Scene metaW id 0 false false (1 / 10)
    (fun l => List.Perm.refl l) (by decide) (by decide)
